import Mathlib

/-!
# Ledger subsystem of `src/app.js` — shallow embedding and verification

The source is a single Express application (`src/src/app.js`) over three
Sequelize models: `Profile` (with a `type` of `client` or `contractor`, a
`balance`), `Contract` (`ClientId`, `ContractorId`, `status`), and `Job`
(`ContractId`, `price`, `paid`, `paymentDate`).  The spec names the roles
payer (= client) and performer (= contractor).

Numbers coming from the request body are JavaScript numbers and may be
`NaN` (a non-numeric or missing `amount` coerces to `NaN` in comparisons
and in `parseFloat`).  We embed a JavaScript number as `Option ℚ`, with
`none` standing for `NaN`; the comparison and arithmetic helpers below
reproduce the JavaScript semantics the handlers rely on: every ordered
comparison with `NaN` is `false`, and arithmetic with `NaN` yields `NaN`.
Database-resident `price` values are plain numbers, embedded as `ℚ`.
Balances are embedded as `Option ℚ` because the deposit handler can in
fact write `NaN` into a balance (see `depositRun` below).
-/

/-- A JavaScript number: `none` is `NaN`. -/
abbrev JsNum := Option ℚ

/-- JavaScript `a < b`; any comparison against `NaN` is `false`. -/
def jlt (a b : JsNum) : Bool :=
  match a, b with
  | some x, some y => decide (x < y)
  | _, _ => false

/-- JavaScript `a <= b`; any comparison against `NaN` is `false`. -/
def jle (a b : JsNum) : Bool :=
  match a, b with
  | some x, some y => decide (x ≤ y)
  | _, _ => false

/-- JavaScript `a > b`; any comparison against `NaN` is `false`. -/
def jgt (a b : JsNum) : Bool :=
  match a, b with
  | some x, some y => decide (y < x)
  | _, _ => false

/-- JavaScript addition: `NaN` propagates. -/
def jadd (a b : JsNum) : JsNum :=
  match a, b with
  | some x, some y => some (x + y)
  | _, _ => none

/-- JavaScript subtraction: `NaN` propagates. -/
def jsub (a b : JsNum) : JsNum :=
  match a, b with
  | some x, some y => some (x - y)
  | _, _ => none

/-- `Profile.type` in the source: `'client'` (the spec's payer) or
`'contractor'` (the spec's performer). -/
inductive ProfileType
  | client
  | contractor
  deriving DecidableEq, Repr

/-- `Contract.status` in the source. -/
inductive ContractStatus
  | new
  | inProgress
  | terminated
  deriving DecidableEq, Repr

/-- A `Profile` row. -/
structure Profile where
  id : Nat
  type : ProfileType
  profession : String
  balance : JsNum
  firstName : String
  lastName : String
  deriving DecidableEq, Repr

/-- A `Contract` row; `clientId`/`contractorId` embed Sequelize's
`ClientId`/`ContractorId` foreign keys. -/
structure Contract where
  id : Nat
  clientId : Nat
  contractorId : Nat
  status : ContractStatus
  deriving DecidableEq, Repr

/-- A `Job` row; `paymentDate` is a nullable timestamp. -/
structure Job where
  id : Nat
  contractId : Nat
  price : ℚ
  paid : Bool
  paymentDate : Option Int
  deriving DecidableEq, Repr

/-- The Ledger Store: the three tables. -/
structure Store where
  profiles : List Profile
  contracts : List Contract
  jobs : List Job
  deriving DecidableEq, Repr

/-- `Job.findOne({ where: { id: jobId } })`. -/
def findJob (s : Store) (jobId : Nat) : Option Job :=
  s.jobs.find? (fun j => j.id == jobId)

/-- `Contract.findOne({ where: { id: contractId } })`. -/
def findContract (s : Store) (contractId : Nat) : Option Contract :=
  s.contracts.find? (fun c => c.id == contractId)

/-- `Profile.findOne({ where: { id, type: 'client' } })`. -/
def findClient (s : Store) (pid : Nat) : Option Profile :=
  s.profiles.find? (fun p => p.id == pid && p.type == ProfileType.client)

/-- `Profile.findOne({ where: { id, type: 'contractor' } })`. -/
def findContractor (s : Store) (pid : Nat) : Option Profile :=
  s.profiles.find? (fun p => p.id == pid && p.type == ProfileType.contractor)

/-- `row.update(...)` on the row a `findOne` returned: rewrite the first
row of the table satisfying the `findOne` predicate, leaving the rest
unchanged. -/
def updateFirst (pred : Profile → Bool) (f : Profile → Profile) :
    List Profile → List Profile
  | [] => []
  | p :: ps => if pred p then f p :: ps else p :: updateFirst pred f ps

/-- The outcomes of `POST /jobs/:job_id/pay`, one per `return` in the
handler. -/
inductive SettleOutcome
  | jobNotFound
  | alreadyPaid
  | contractNotFound
  | clientNotFound
  | insufficientFunds
  | contractorNotFound
  | success
  deriving DecidableEq, Repr

/-- `POST /jobs/:job_id/pay` (`SettleJob` in the spec), translated
check-for-check from the handler: find the job, reject if paid, find the
contract, find the client and the contractor, reject a missing client,
reject `client.balance < job.price`, reject a missing contractor, and
otherwise — inside one transaction — debit the client, credit the
contractor and mark the job paid with `paymentDate = now`.  Error paths
perform no write, so they pair the outcome with the unchanged store. -/
def settleJob (s : Store) (jobId clientId : Nat) (now : Int) :
    SettleOutcome × Store :=
  match findJob s jobId with
  | none => (SettleOutcome.jobNotFound, s)
  | some job =>
    if job.paid then (SettleOutcome.alreadyPaid, s)
    else
      match findContract s job.contractId with
      | none => (SettleOutcome.contractNotFound, s)
      | some contract =>
        match findClient s clientId with
        | none => (SettleOutcome.clientNotFound, s)
        | some client =>
          if jlt client.balance (some job.price) then
            (SettleOutcome.insufficientFunds, s)
          else
            match findContractor s contract.contractorId with
            | none => (SettleOutcome.contractorNotFound, s)
            | some _ =>
              let ps1 := updateFirst
                (fun p => p.id == clientId && p.type == ProfileType.client)
                (fun p => { p with balance := jsub p.balance (some job.price) })
                s.profiles
              let ps2 := updateFirst
                (fun p => p.id == contract.contractorId &&
                  p.type == ProfileType.contractor)
                (fun p => { p with balance := jadd p.balance (some job.price) })
                ps1
              let js := s.jobs.map (fun j =>
                if j.id == jobId then
                  { j with paid := true, paymentDate := some now }
                else j)
              (SettleOutcome.success, { s with profiles := ps2, jobs := js })

example :
    settleJob
      { profiles := [
          { id := 1, type := ProfileType.client, profession := "",
            balance := some 100, firstName := "a", lastName := "b" },
          { id := 2, type := ProfileType.contractor, profession := "p",
            balance := some 10, firstName := "c", lastName := "d" }],
        contracts := [
          { id := 7, clientId := 1, contractorId := 2,
            status := ContractStatus.inProgress }],
        jobs := [
          { id := 5, contractId := 7, price := 80, paid := false,
            paymentDate := none }] }
      5 1 3 =
    (SettleOutcome.success,
      { profiles := [
          { id := 1, type := ProfileType.client, profession := "",
            balance := some 20, firstName := "a", lastName := "b" },
          { id := 2, type := ProfileType.contractor, profession := "p",
            balance := some 90, firstName := "c", lastName := "d" }],
        contracts := [
          { id := 7, clientId := 1, contractorId := 2,
            status := ContractStatus.inProgress }],
        jobs := [
          { id := 5, contractId := 7, price := 80, paid := true,
            paymentDate := some 3 }] }) := by
  norm_num [settleJob, findJob, findContract, findClient, findContractor,
    updateFirst, jlt, jsub, jadd]

/-- The outcomes of `POST /balances/deposit/:userId`, one per `return` in
the handler; `success` carries the `newBalance` of the response. -/
inductive DepositOutcome
  | invalidRequest
  | clientNotFound
  | depositLimitExceeded (limit : ℚ)
  | success (newBalance : JsNum)
  deriving DecidableEq, Repr

/-- `Job.sum('price', ...)`: the SQL `SUM(price)` over unpaid jobs joined
to a contract with `ClientId = userId` and `status = 'in_progress'`.  SQL
`SUM` over an empty set is `NULL`, which the driver hands back as `null`
(`none` here). -/
def unpaidJobsTotal (s : Store) (userId : Nat) : Option ℚ :=
  let js := s.jobs.filter (fun j => !j.paid &&
    s.contracts.any (fun c => c.id == j.contractId && c.clientId == userId &&
      c.status == ContractStatus.inProgress))
  if js.isEmpty then none else some ((js.map Job.price).sum)

/-- `const maxDeposit = unpaidJobsTotal * 0.25`.  When the sum is `null`,
JavaScript evaluates `null * 0.25` to `0` (`null` coerces to `0`, not
`NaN`), so the limit is `0` with no matching jobs. -/
def maxDeposit (s : Store) (userId : Nat) : ℚ :=
  match unpaidJobsTotal s userId with
  | none => 0
  | some t => t * (1 / 4)

/-- `POST /balances/deposit/:userId` (`Deposit` in the spec), translated
check-for-check: the guard is `amount <= 0` (a JavaScript comparison, so a
`NaN` amount passes it), then the client lookup, then `amount > maxDeposit`
(a `NaN` amount passes this too), then
`balance = parseFloat(balance) + parseFloat(amount)` and the response
carries the updated balance. -/
def depositRun (s : Store) (userId : Nat) (amount : JsNum) :
    DepositOutcome × Store :=
  if jle amount (some 0) then (DepositOutcome.invalidRequest, s)
  else
    match findClient s userId with
    | none => (DepositOutcome.clientNotFound, s)
    | some client =>
      let maxD := maxDeposit s userId
      if jgt amount (some maxD) then
        (DepositOutcome.depositLimitExceeded maxD, s)
      else
        let newBal := jadd client.balance amount
        let ps := updateFirst
          (fun p => p.id == userId && p.type == ProfileType.client)
          (fun p => { p with balance := newBal }) s.profiles
        (DepositOutcome.success newBal, { s with profiles := ps })

/-- `paymentDate BETWEEN start AND end` — inclusive on both ends; a SQL
`NULL` date never matches. -/
def jdateBetween (d : Option Int) (a b : Int) : Bool :=
  match d with
  | some t => decide (a ≤ t) && decide (t ≤ b)
  | none => false

/-- The profession attached to a job by the `best-profession` query's
joins: the job's contract's contractor profile, required to have
`type = 'contractor'`. -/
def professionOf (s : Store) (j : Job) : Option String :=
  (findContract s j.contractId).bind fun c =>
    (findContractor s c.contractorId).map Profile.profession

/-- A job matches the `best-profession` query: `paid = true`,
`paymentDate` in the window, and the inner joins to its contract and a
contractor profile succeed. -/
def bpMatch (s : Store) (a b : Int) (j : Job) : Bool :=
  j.paid && jdateBetween j.paymentDate a b && (professionOf s j).isSome

/-- The distinct professions appearing among the matching jobs — the
query's `GROUP BY Contract.Contractor.profession` groups. -/
def matchingProfessions (s : Store) (a b : Int) : List String :=
  ((s.jobs.filter (bpMatch s a b)).filterMap (professionOf s)).dedup

/-- `SUM(price)` of one profession's group. -/
def professionSum (s : Store) (a b : Int) (prof : String) : ℚ :=
  (((s.jobs.filter (bpMatch s a b)).filter
      (fun j => professionOf s j == some prof)).map Job.price).sum

/-- `ORDER BY SUM(price) DESC LIMIT 1` over a non-empty group list: keep
the group with the strictly larger sum, the earlier group on ties (SQL
leaves tie order unspecified; this picks one deterministically). -/
def pickMax {α : Type} (v : α → ℚ) (x : α) (xs : List α) : α × ℚ :=
  xs.foldl (fun best q => if best.2 < v q then (q, v q) else best) (x, v x)

/-- `GET /admin/best-profession` (`BestProfession` in the spec): `none`
embeds the 404 on an empty group list, `some (profession, totalEarnings)`
the JSON response. -/
def bestProfession (s : Store) (a b : Int) : Option (String × ℚ) :=
  match matchingProfessions s a b with
  | [] => none
  | p :: ps => some (pickMax (professionSum s a b) p ps)

/-- The `limit` query parameter of `GET /admin/best-clients` as the
handler sees it after `parseInt(limit, 10)`: absent, parsed to `NaN`, or
parsed to an integer. -/
inductive LimitParam
  | missing
  | nonNumeric
  | num (n : Int)
  deriving DecidableEq, Repr

/-- The limit actually passed to the query: destructuring supplies the
default `2` when the parameter is absent; otherwise
`parseInt(limit, 10) || 2` turns `NaN` and `0` (both falsy) into `2` and
leaves every other integer — negative ones included — unchanged. -/
def effectiveLimit : LimitParam → Int
  | LimitParam.missing => 2
  | LimitParam.nonNumeric => 2
  | LimitParam.num n => if n == 0 then 2 else n

/-- A job matches the `best-clients` query: `paid = true`, `paymentDate`
in the window, and the `required: true` join to its contract succeeds. -/
def bcMatch (s : Store) (a b : Int) (j : Job) : Bool :=
  j.paid && jdateBetween j.paymentDate a b && (findContract s j.contractId).isSome

/-- The payer (`Contract.ClientId`) a job is grouped under. -/
def payerOf (s : Store) (j : Job) : Option Nat :=
  (findContract s j.contractId).map Contract.clientId

/-- The distinct payers appearing among the matching jobs — the query's
`GROUP BY Contract.ClientId` groups. -/
def matchingPayers (s : Store) (a b : Int) : List Nat :=
  ((s.jobs.filter (bcMatch s a b)).filterMap (payerOf s)).dedup

/-- `SUM(price)` of one payer's group (`totalPaid`). -/
def payerTotal (s : Store) (a b : Int) (pid : Nat) : ℚ :=
  (((s.jobs.filter (bcMatch s a b)).filter
      (fun j => payerOf s j == some pid)).map Job.price).sum

/-- Insertion step of the `ORDER BY SUM(price) DESC` sort. -/
def insertDescBy (v : Nat → ℚ) (x : Nat) : List Nat → List Nat
  | [] => [x]
  | y :: ys => if v y < v x then x :: y :: ys else y :: insertDescBy v x ys

/-- `ORDER BY SUM(price) DESC` as an insertion sort (tie order is
unspecified in SQL; this keeps earlier groups first). -/
def sortDescBy (v : Nat → ℚ) (l : List Nat) : List Nat :=
  l.foldr (insertDescBy v) []

/-- `GET /admin/best-clients` (`BestPayers` in the spec): the grouped,
summed, descending-ordered payer rows, cut by `LIMIT`.  `List.take`
renders SQL `LIMIT n` for `n ≥ 0` (`Int.toNat` of a negative effective
limit is `0`; what SQL does with a negative `LIMIT` is dialect-dependent
and outside this model, see `effectiveLimit_negative_passthrough`). -/
def bestClients (s : Store) (a b : Int) (lp : LimitParam) : List (Nat × ℚ) :=
  ((sortDescBy (payerTotal s a b) (matchingPayers s a b)).map
      (fun pid => (pid, payerTotal s a b pid))).take (effectiveLimit lp).toNat

/-- The outcomes of `GET /contracts`: the handler returns a 404
(`No active contracts found`) when the filtered list is empty. -/
inductive ContractsOutcome
  | noActiveContracts
  | ok (cs : List Contract)
  deriving DecidableEq, Repr

/-- `Contract.findAll` of `GET /contracts`: contracts where the caller is
client or contractor and `status = 'in_progress'`. -/
def activeContractsOf (s : Store) (pid : Nat) : List Contract :=
  s.contracts.filter (fun c => (c.clientId == pid || c.contractorId == pid) &&
    c.status == ContractStatus.inProgress)

/-- `GET /contracts` (`ListActiveContracts` in the spec), translated from
the handler: empty result → 404, otherwise the list. -/
def listActiveContracts (s : Store) (pid : Nat) : ContractsOutcome :=
  let cs := activeContractsOf s pid
  if cs.isEmpty then ContractsOutcome.noActiveContracts
  else ContractsOutcome.ok cs

/-! ## Helper lemmas on `updateFirst` and `pickMax` -/

theorem updateFirst_cons (pred : Profile → Bool) (f : Profile → Profile)
    (p : Profile) (ps : List Profile) :
    updateFirst pred f (p :: ps) =
      if pred p then f p :: ps else p :: updateFirst pred f ps := rfl

/-- Looking up the row `updateFirst` rewrote: when `f` does not disturb
the predicate, the lookup returns the rewritten row. -/
theorem updateFirst_find?_self {pred : Profile → Bool} {f : Profile → Profile}
    (hf : ∀ p, pred (f p) = pred p) :
    ∀ ps : List Profile,
      (updateFirst pred f ps).find? pred = (ps.find? pred).map f
  | [] => by simp [updateFirst]
  | p :: ps => by
    by_cases hp : pred p
    · rw [updateFirst_cons, if_pos hp, List.find?_cons_of_pos _ (by rw [hf]; exact hp),
        List.find?_cons_of_pos _ hp]
      rfl
    · rw [updateFirst_cons, if_neg hp, List.find?_cons_of_neg _ hp,
        List.find?_cons_of_neg _ hp, updateFirst_find?_self hf ps]

/-- Looking up a row other than the one `updateFirst` rewrote: when no
row can satisfy both predicates and `f` does not disturb the first, the
lookup is unchanged. -/
theorem updateFirst_find?_other {pred1 pred2 : Profile → Bool}
    {f : Profile → Profile}
    (hf : ∀ p, pred1 (f p) = pred1 p)
    (hdisj : ∀ p, pred2 p = true → pred1 p = false) :
    ∀ ps : List Profile,
      (updateFirst pred2 f ps).find? pred1 = ps.find? pred1
  | [] => by simp [updateFirst]
  | p :: ps => by
    by_cases hp : pred2 p
    · have h1 : pred1 p = false := hdisj p hp
      rw [updateFirst_cons, if_pos hp,
        List.find?_cons_of_neg _ (by rw [hf]; simp [h1]),
        List.find?_cons_of_neg _ (by simp [h1])]
    · by_cases hq : pred1 p
      · rw [updateFirst_cons, if_neg hp, List.find?_cons_of_pos _ hq,
          List.find?_cons_of_pos _ hq]
      · rw [updateFirst_cons, if_neg hp, List.find?_cons_of_neg _ hq,
          List.find?_cons_of_neg _ hq, updateFirst_find?_other hf hdisj ps]

/-- A member of `updateFirst pred f ps` is either an untouched member of
`ps` or the image under `f` of the row the lookup would return. -/
theorem mem_updateFirst {pred : Profile → Bool} {f : Profile → Profile} :
    ∀ {ps : List Profile} {q : Profile}, q ∈ updateFirst pred f ps →
      q ∈ ps ∨ ∃ r, ps.find? pred = some r ∧ q = f r
  | [], q, h => by simp [updateFirst] at h
  | p :: ps, q, h => by
    by_cases hp : pred p
    · rw [updateFirst_cons, if_pos hp] at h
      rcases List.mem_cons.mp h with h1 | h2
      · exact Or.inr ⟨p, List.find?_cons_of_pos _ hp, h1⟩
      · exact Or.inl (List.mem_cons_of_mem _ h2)
    · rw [updateFirst_cons, if_neg hp] at h
      rcases List.mem_cons.mp h with h1 | h2
      · exact Or.inl (h1 ▸ List.mem_cons_self _ _)
      · rcases mem_updateFirst h2 with h3 | ⟨r, hr, hq⟩
        · exact Or.inl (List.mem_cons_of_mem _ h3)
        · exact Or.inr ⟨r, by rw [List.find?_cons_of_neg _ hp, hr], hq⟩

/-- The selection fold behind `bestProfession`: it returns a group of the
candidate list paired with that group's value, and no candidate has a
larger value. -/
theorem pickMax_spec {α : Type} (v : α → ℚ) :
    ∀ (xs : List α) (x : α),
      ((pickMax v x xs).1 = x ∨ (pickMax v x xs).1 ∈ xs) ∧
      (pickMax v x xs).2 = v (pickMax v x xs).1 ∧
      v x ≤ (pickMax v x xs).2 ∧
      ∀ q ∈ xs, v q ≤ (pickMax v x xs).2
  | [], x => by simp [pickMax]
  | q :: xs, x => by
    have hstep : pickMax v x (q :: xs) =
        if v x < v q then pickMax v q xs else pickMax v x xs := by
      by_cases h : v x < v q <;> simp [pickMax, h]
    by_cases h : v x < v q
    · rw [hstep, if_pos h]
      rcases pickMax_spec v xs q with ⟨hmem, heq, hge, hall⟩
      refine ⟨?_, heq, le_of_lt (lt_of_lt_of_le h hge), ?_⟩
      · rcases hmem with h1 | h1
        · exact Or.inr (by rw [h1]; exact List.mem_cons_self q xs)
        · exact Or.inr (List.mem_cons_of_mem _ h1)
      · intro y hy
        rcases List.mem_cons.mp hy with h1 | h1
        · exact h1 ▸ hge
        · exact hall y h1
    · rw [hstep, if_neg h]
      rcases pickMax_spec v xs x with ⟨hmem, heq, hge, hall⟩
      refine ⟨?_, heq, hge, ?_⟩
      · rcases hmem with h1 | h1
        · exact Or.inl h1
        · exact Or.inr (List.mem_cons_of_mem _ h1)
      intro y hy
      rcases List.mem_cons.mp hy with h1 | h1
      · exact h1 ▸ le_trans (le_of_not_lt h) hge
      · exact hall y h1

/-! ## C1 — conservation of funds on successful settlement -/

/-- C1: for every successful `SettleJob` call, funds are conserved: the
payer's balance decreases by exactly `job.price`, the performer's balance
increases by exactly `job.price`, and the sum of the two balances after
the operation equals their sum before it. -/
theorem settleJob_conservation
    (s : Store) (jobId clientId : Nat) (now : Int) (s' : Store)
    (job : Job) (ct : Contract) (client perf : Profile) (b c : ℚ)
    (hj : findJob s jobId = some job)
    (hct : findContract s job.contractId = some ct)
    (hcl : findClient s clientId = some client)
    (hpf : findContractor s ct.contractorId = some perf)
    (hb : client.balance = some b)
    (hc : perf.balance = some c)
    (h : settleJob s jobId clientId now = (SettleOutcome.success, s')) :
    (findClient s' clientId).map Profile.balance =
      some (some (b - job.price)) ∧
    (findContractor s' ct.contractorId).map Profile.balance =
      some (some (c + job.price)) ∧
    (b - job.price) + (c + job.price) = b + c := by
  cases hpaid : job.paid with
  | true =>
    simp only [settleJob, hj, hct, hcl, hpf, hpaid] at h
    simp at h
  | false =>
    cases hfund : jlt client.balance (some job.price) with
    | true =>
      simp only [settleJob, hj, hct, hcl, hpf, hpaid, hfund] at h
      simp at h
    | false =>
      simp only [settleJob, hj, hct, hcl, hpf, hpaid, hfund] at h
      injection h with h1 h2
      subst h2
      refine ⟨?_, ?_, by ring⟩
      · show ((updateFirst
            (fun p => p.id == ct.contractorId &&
              p.type == ProfileType.contractor)
            (fun p => { p with balance := jadd p.balance (some job.price) })
            (updateFirst
              (fun p => p.id == clientId && p.type == ProfileType.client)
              (fun p => { p with balance := jsub p.balance (some job.price) })
              s.profiles)).find?
            (fun p => p.id == clientId && p.type == ProfileType.client)).map
            Profile.balance = some (some (b - job.price))
        have e1 := @updateFirst_find?_other
          (fun p => p.id == clientId && p.type == ProfileType.client)
          (fun p => p.id == ct.contractorId &&
            p.type == ProfileType.contractor)
          (fun p => { p with balance := jadd p.balance (some job.price) })
          (fun p => rfl)
          (fun p hp => by
            simp only [Bool.and_eq_true, beq_iff_eq] at hp
            simp [hp.2])
          (updateFirst
            (fun p => p.id == clientId && p.type == ProfileType.client)
            (fun p => { p with balance := jsub p.balance (some job.price) })
            s.profiles)
        have e2 := @updateFirst_find?_self
          (fun p => p.id == clientId && p.type == ProfileType.client)
          (fun p => { p with balance := jsub p.balance (some job.price) })
          (fun p => rfl) s.profiles
        rw [e1, e2]
        unfold findClient at hcl
        rw [hcl]
        simp [jsub, hb]
      · show ((updateFirst
            (fun p => p.id == ct.contractorId &&
              p.type == ProfileType.contractor)
            (fun p => { p with balance := jadd p.balance (some job.price) })
            (updateFirst
              (fun p => p.id == clientId && p.type == ProfileType.client)
              (fun p => { p with balance := jsub p.balance (some job.price) })
              s.profiles)).find?
            (fun p => p.id == ct.contractorId &&
              p.type == ProfileType.contractor)).map
            Profile.balance = some (some (c + job.price))
        have e3 := @updateFirst_find?_self
          (fun p => p.id == ct.contractorId &&
            p.type == ProfileType.contractor)
          (fun p => { p with balance := jadd p.balance (some job.price) })
          (fun p => rfl)
          (updateFirst
            (fun p => p.id == clientId && p.type == ProfileType.client)
            (fun p => { p with balance := jsub p.balance (some job.price) })
            s.profiles)
        have e4 := @updateFirst_find?_other
          (fun p => p.id == ct.contractorId &&
            p.type == ProfileType.contractor)
          (fun p => p.id == clientId && p.type == ProfileType.client)
          (fun p => { p with balance := jsub p.balance (some job.price) })
          (fun p => rfl)
          (fun p hp => by
            simp only [Bool.and_eq_true, beq_iff_eq] at hp
            simp [hp.2])
          s.profiles
        rw [e3, e4]
        unfold findContractor at hpf
        rw [hpf]
        simp [jadd, hc]

def storeC1 : Store :=
  { profiles := [
      { id := 1, type := ProfileType.client, profession := "",
        balance := some 100, firstName := "a", lastName := "b" },
      { id := 2, type := ProfileType.contractor, profession := "p",
        balance := some 10, firstName := "c", lastName := "d" }],
    contracts := [
      { id := 7, clientId := 1, contractorId := 2,
        status := ContractStatus.inProgress }],
    jobs := [
      { id := 5, contractId := 7, price := 80, paid := false,
        paymentDate := none }] }

def resultC1 : Store :=
  { profiles := [
      { id := 1, type := ProfileType.client, profession := "",
        balance := some 20, firstName := "a", lastName := "b" },
      { id := 2, type := ProfileType.contractor, profession := "p",
        balance := some 90, firstName := "c", lastName := "d" }],
    contracts := [
      { id := 7, clientId := 1, contractorId := 2,
        status := ContractStatus.inProgress }],
    jobs := [
      { id := 5, contractId := 7, price := 80, paid := true,
        paymentDate := some 3 }] }

/-- Witness for C1: the spec's first scenario — payer balance 100, job
price 80 — settles successfully, leaving payer 20 and performer 90, and
20 + 90 = 100 + 10. -/
theorem settleJob_conservation_witness :
    (findClient (settleJob storeC1 5 1 3).2 1).map Profile.balance =
      some (some (20 : ℚ)) ∧
    (findContractor (settleJob storeC1 5 1 3).2 2).map Profile.balance =
      some (some (90 : ℚ)) ∧
    ((100 : ℚ) - 80) + (10 + 80) = 100 + 10 := by
  have hrun : settleJob storeC1 5 1 3 = (SettleOutcome.success, resultC1) := by
    norm_num [settleJob, findJob, findContract, findClient, findContractor,
      updateFirst, jlt, jsub, jadd, storeC1, resultC1]
  have h := settleJob_conservation storeC1 5 1 3 resultC1
    { id := 5, contractId := 7, price := 80, paid := false,
      paymentDate := none }
    { id := 7, clientId := 1, contractorId := 2,
      status := ContractStatus.inProgress }
    { id := 1, type := ProfileType.client, profession := "",
      balance := some 100, firstName := "a", lastName := "b" }
    { id := 2, type := ProfileType.contractor, profession := "p",
      balance := some 10, firstName := "c", lastName := "d" }
    100 10
    (by norm_num [findJob, storeC1])
    (by norm_num [findContract, storeC1])
    (by norm_num [findClient, storeC1])
    (by norm_num [findContractor, storeC1])
    rfl rfl hrun
  rw [hrun]
  refine ⟨?_, ?_, by norm_num⟩
  · rw [h.1]
    norm_num
  · rw [h.2.1]
    norm_num

/-! ## C2 — the order of the settlement's precondition checks -/

def storeC2 : Store :=
  { profiles := [
      { id := 1, type := ProfileType.client, profession := "",
        balance := some 50, firstName := "a", lastName := "b" }],
    contracts := [
      { id := 1, clientId := 1, contractorId := 9,
        status := ContractStatus.inProgress }],
    jobs := [
      { id := 1, contractId := 1, price := 80, paid := false,
        paymentDate := none }] }

/-- C2 counterexample: in a store where the performer profile is missing
(`findContractor _ 9 = none`) and the payer's balance 50 is below the job
price 80, the handler reports `insufficientFunds`, not the
`contractorNotFound` the claim requires — the balance check runs before
the performer-existence check. -/
theorem settleJob_order_cex :
    findContractor storeC2 9 = none ∧
    jlt (some (50 : ℚ)) (some (80 : ℚ)) = true ∧
    (settleJob storeC2 1 1 0).1 = SettleOutcome.insufficientFunds ∧
    (settleJob storeC2 1 1 0).1 ≠ SettleOutcome.contractorNotFound := by
  have h3 : (settleJob storeC2 1 1 0).1 = SettleOutcome.insufficientFunds := by
    norm_num [settleJob, findJob, findContract, findClient, findContractor,
      jlt, storeC2]
  exact ⟨by norm_num [findContractor, storeC2], by norm_num [jlt], h3,
    by rw [h3]; simp⟩

/-- C2 (amended): `SettleJob` checks its six preconditions in the order
job exists, job unpaid, contract exists, payer profile exists,
`payer.balance >= job.price`, performer profile exists — funds before
performer — and reports the distinct failure of the first violated check;
in particular a missing performer combined with insufficient funds yields
`insufficientFunds`. -/
theorem settleJob_check_order (s : Store) (jobId clientId : Nat) (now : Int) :
    (findJob s jobId = none →
      (settleJob s jobId clientId now).1 = SettleOutcome.jobNotFound) ∧
    (∀ job, findJob s jobId = some job → job.paid = true →
      (settleJob s jobId clientId now).1 = SettleOutcome.alreadyPaid) ∧
    (∀ job, findJob s jobId = some job → job.paid = false →
      findContract s job.contractId = none →
      (settleJob s jobId clientId now).1 = SettleOutcome.contractNotFound) ∧
    (∀ job ct, findJob s jobId = some job → job.paid = false →
      findContract s job.contractId = some ct →
      findClient s clientId = none →
      (settleJob s jobId clientId now).1 = SettleOutcome.clientNotFound) ∧
    (∀ job ct client, findJob s jobId = some job → job.paid = false →
      findContract s job.contractId = some ct →
      findClient s clientId = some client →
      jlt client.balance (some job.price) = true →
      (settleJob s jobId clientId now).1 = SettleOutcome.insufficientFunds) ∧
    (∀ job ct client, findJob s jobId = some job → job.paid = false →
      findContract s job.contractId = some ct →
      findClient s clientId = some client →
      jlt client.balance (some job.price) = false →
      findContractor s ct.contractorId = none →
      (settleJob s jobId clientId now).1 = SettleOutcome.contractorNotFound) ∧
    (∀ job ct client perf, findJob s jobId = some job → job.paid = false →
      findContract s job.contractId = some ct →
      findClient s clientId = some client →
      jlt client.balance (some job.price) = false →
      findContractor s ct.contractorId = some perf →
      (settleJob s jobId clientId now).1 = SettleOutcome.success) := by
  refine ⟨?_, ?_, ?_, ?_, ?_, ?_, ?_⟩
  · intro h
    simp [settleJob, h]
  · intro job hj hp
    simp [settleJob, hj, hp]
  · intro job hj hp hct
    simp [settleJob, hj, hp, hct]
  · intro job ct hj hp hct hcl
    simp [settleJob, hj, hp, hct, hcl]
  · intro job ct client hj hp hct hcl hfund
    simp [settleJob, hj, hp, hct, hcl, hfund]
  · intro job ct client hj hp hct hcl hfund hpf
    simp [settleJob, hj, hp, hct, hcl, hfund, hpf]
  · intro job ct client perf hj hp hct hcl hfund hpf
    simp [settleJob, hj, hp, hct, hcl, hfund, hpf]

def storeC2w : Store :=
  { profiles := [
      { id := 1, type := ProfileType.client, profession := "",
        balance := some 100, firstName := "a", lastName := "b" }],
    contracts := [
      { id := 1, clientId := 1, contractorId := 9,
        status := ContractStatus.inProgress }],
    jobs := [
      { id := 1, contractId := 1, price := 80, paid := false,
        paymentDate := none }] }

/-- Witness for the amended C2: with sufficient funds (100 ≥ 80) and the
performer profile missing, the settlement fails `contractorNotFound`. -/
theorem settleJob_check_order_witness :
    (settleJob storeC2w 1 1 0).1 = SettleOutcome.contractorNotFound := by
  exact (settleJob_check_order storeC2w 1 1 0).2.2.2.2.2.1
    { id := 1, contractId := 1, price := 80, paid := false,
      paymentDate := none }
    { id := 1, clientId := 1, contractorId := 9,
      status := ContractStatus.inProgress }
    { id := 1, type := ProfileType.client, profession := "",
      balance := some 100, firstName := "a", lastName := "b" }
    (by norm_num [findJob, storeC2w]) rfl
    (by norm_num [findContract, storeC2w])
    (by norm_num [findClient, storeC2w])
    (by norm_num [jlt])
    (by norm_num [findContractor, storeC2w])

/-! ## C4 — failed settlements leave the store unchanged -/

/-- C4: whenever `SettleJob` fails (any outcome other than `success`),
the store — every profile balance and every job's `paid`/`paymentDate` —
is exactly as before the call. -/
theorem settleJob_fail_unchanged (s : Store) (jobId clientId : Nat)
    (now : Int)
    (h : (settleJob s jobId clientId now).1 ≠ SettleOutcome.success) :
    (settleJob s jobId clientId now).2 = s := by
  rcases he : settleJob s jobId clientId now with ⟨o, s2⟩
  rw [he] at h
  simp only at h ⊢
  unfold settleJob at he
  repeat' split at he
  all_goals
    injection he with h1 h2
  all_goals
    subst h1
  all_goals
    first
    | exact absurd rfl h
    | exact h2.symm

def storeC4 : Store :=
  { profiles := [
      { id := 1, type := ProfileType.client, profession := "",
        balance := some 50, firstName := "a", lastName := "b" },
      { id := 2, type := ProfileType.contractor, profession := "p",
        balance := some 10, firstName := "c", lastName := "d" }],
    contracts := [
      { id := 7, clientId := 1, contractorId := 2,
        status := ContractStatus.inProgress }],
    jobs := [
      { id := 5, contractId := 7, price := 80, paid := false,
        paymentDate := none }] }

/-- Witness for C4: the spec's scenario — payer balance 50, job price 80
— fails `insufficientFunds` and no row changes. -/
theorem settleJob_fail_unchanged_witness :
    (settleJob storeC4 5 1 0).1 = SettleOutcome.insufficientFunds ∧
    (settleJob storeC4 5 1 0).2 = storeC4 := by
  have h1 : (settleJob storeC4 5 1 0).1 = SettleOutcome.insufficientFunds := by
    norm_num [settleJob, findJob, findContract, findClient, findContractor,
      jlt, storeC4]
  exact ⟨h1, settleJob_fail_unchanged storeC4 5 1 0 (by rw [h1]; simp)⟩

/-! ## C3 — operations preserve non-negative balances -/

/-- No profile's balance is `< 0`: every numeric balance is non-negative
(a `NaN` balance is not `< 0`, exactly as in JavaScript). -/
def noNegBalance (s : Store) : Prop :=
  ∀ p ∈ s.profiles, ∀ q : ℚ, p.balance = some q → 0 ≤ q

/-- The data-model invariant on jobs (spec §3: `price` is a positive
decimal); only non-negativity is needed below. -/
def pricesNonneg (s : Store) : Prop :=
  ∀ j ∈ s.jobs, 0 ≤ j.price

/-- C3: starting from a state whose profile balances are all
non-negative (and whose job prices respect the data model), no
`SettleJob` or `Deposit` call produces a state in which some profile's
balance is `< 0`. -/
theorem ops_preserve_nonneg (s : Store)
    (hbal : noNegBalance s) (hpr : pricesNonneg s) :
    (∀ jobId clientId now,
      noNegBalance (settleJob s jobId clientId now).2) ∧
    (∀ userId amount, noNegBalance (depositRun s userId amount).2) := by
  constructor
  · intro jobId clientId now
    cases hj : findJob s jobId with
    | none =>
      simp only [settleJob, hj]
      exact hbal
    | some job =>
      cases hpaid : job.paid with
      | true =>
        simp only [settleJob, hj, hpaid]
        exact hbal
      | false =>
        cases hct : findContract s job.contractId with
        | none =>
          simp only [settleJob, hj, hpaid, hct]
          exact hbal
        | some ct =>
          cases hcl : findClient s clientId with
          | none =>
            simp only [settleJob, hj, hpaid, hct, hcl]
            exact hbal
          | some client =>
            cases hfund : jlt client.balance (some job.price) with
            | true =>
              simp only [settleJob, hj, hpaid, hct, hcl, hfund]
              exact hbal
            | false =>
              cases hpf : findContractor s ct.contractorId with
              | none =>
                simp only [settleJob, hj, hpaid, hct, hcl, hfund, hpf]
                exact hbal
              | some perf =>
                simp only [settleJob, hj, hpaid, hct, hcl, hfund, hpf]
                intro p hp q hq
                have hprice : 0 ≤ job.price :=
                  hpr job (List.mem_of_find?_eq_some hj)
                have hp2 : p ∈ updateFirst
                    (fun p => p.id == ct.contractorId &&
                      p.type == ProfileType.contractor)
                    (fun p =>
                      { p with balance := jadd p.balance (some job.price) })
                    (updateFirst
                      (fun p => p.id == clientId &&
                        p.type == ProfileType.client)
                      (fun p =>
                        { p with balance := jsub p.balance (some job.price) })
                      s.profiles) := hp
                rcases mem_updateFirst hp2 with hmem | ⟨r, hr, hp0⟩
                · rcases mem_updateFirst hmem with hmem2 | ⟨r0, hr0, hp1⟩
                  · exact hbal p hmem2 q hq
                  · -- `p` is the debited payer row; the funds guard
                    -- keeps the result non-negative.
                    have hr0c : r0 = client := by
                      have he : findClient s clientId = some r0 := hr0
                      rw [hcl] at he
                      exact (Option.some.inj he).symm
                    subst hp1
                    subst hr0c
                    cases hbr : r0.balance with
                    | none => simp [jsub, hbr] at hq
                    | some b0 =>
                      have hq2 : b0 - job.price = q := by
                        have he : jsub r0.balance (some job.price) = some q := hq
                        rw [hbr] at he
                        simp [jsub] at he
                        exact he
                      rw [hbr] at hfund
                      simp only [jlt, decide_eq_false_iff_not, not_lt] at hfund
                      rw [← hq2]
                      exact sub_nonneg.mpr hfund
                · -- `p` is the credited performer row.
                  have hrs : r ∈ s.profiles := by
                    rcases mem_updateFirst
                        (List.mem_of_find?_eq_some hr) with h1 | ⟨r0, hr0, h2⟩
                    · exact h1
                    · exfalso
                      have hpred2 := List.find?_some hr
                      have hpred1 := List.find?_some hr0
                      subst h2
                      simp only [Bool.and_eq_true, beq_iff_eq] at hpred1 hpred2
                      rw [hpred1.2] at hpred2
                      simp at hpred2
                  subst hp0
                  cases hbr : r.balance with
                  | none => simp [jadd, hbr] at hq
                  | some c0 =>
                    have hq2 : c0 + job.price = q := by
                      have he : jadd r.balance (some job.price) = some q := hq
                      rw [hbr] at he
                      simp [jadd] at he
                      exact he
                    rw [← hq2]
                    exact add_nonneg (hbal r hrs c0 hbr) hprice
  · intro userId amount
    cases hle : jle amount (some 0) with
    | true =>
      simp only [depositRun, hle]
      exact hbal
    | false =>
      cases hcl : findClient s userId with
      | none =>
        simp only [depositRun, hle, hcl]
        exact hbal
      | some client =>
        cases hgt : jgt amount (some (maxDeposit s userId)) with
        | true =>
          simp only [depositRun, hle, hcl, hgt]
          exact hbal
        | false =>
          simp only [depositRun, hle, hcl, hgt]
          intro p hp q hq
          have hp2 : p ∈ updateFirst
              (fun p => p.id == userId && p.type == ProfileType.client)
              (fun p => { p with balance := jadd client.balance amount })
              s.profiles := hp
          rcases mem_updateFirst hp2 with hmem | ⟨r, hr, hp0⟩
          · exact hbal p hmem q hq
          · subst hp0
            cases hbc : client.balance with
            | none => simp [jadd, hbc] at hq
            | some b =>
              cases ham : amount with
              | none =>
                rw [hbc, ham] at hq
                simp [jadd] at hq
              | some a =>
                have hq2 : b + a = q := by
                  have he : jadd client.balance amount = some q := hq
                  rw [hbc, ham] at he
                  simp [jadd] at he
                  exact he
                have hb0 : (0 : ℚ) ≤ b :=
                  hbal client (List.mem_of_find?_eq_some hcl) b hbc
                have ha0 : 0 < a := by
                  rw [ham] at hle
                  simp only [jle, decide_eq_false_iff_not, not_le] at hle
                  exact hle
                rw [← hq2]
                exact add_nonneg hb0 (le_of_lt ha0)

def storeC3 : Store := storeC1

/-- Witness for C3: the settlement scenario's concrete store has
non-negative balances and data-model prices, and both a settlement and a
deposit keep every balance non-negative. -/
theorem ops_preserve_nonneg_witness :
    noNegBalance storeC3 ∧
    noNegBalance (settleJob storeC3 5 1 3).2 ∧
    noNegBalance (depositRun storeC3 1 (some 10)).2 := by
  have hbal : noNegBalance storeC3 := by
    intro p hp q hq
    simp only [storeC3, storeC1, List.mem_cons, List.not_mem_nil,
      or_false] at hp
    rcases hp with h | h
    · subst h
      have h100 := Option.some.inj hq
      rw [← h100]
      norm_num
    · subst h
      have h10 := Option.some.inj hq
      rw [← h10]
      norm_num
  have hpr : pricesNonneg storeC3 := by
    intro j hj
    simp only [storeC3, storeC1, List.mem_cons, List.not_mem_nil,
      or_false] at hj
    subst hj
    norm_num
  obtain ⟨hA, hB⟩ := ops_preserve_nonneg storeC3 hbal hpr
  exact ⟨hbal, hA 5 1 3, hB 1 (some 10)⟩

/-! ## C5 — the deposit limit is 25% of outstanding unpaid-job totals -/

/-- The spec's formula for `MaxDeposit`, written from its words (§4.2):
25% of the sum of `price` over all unpaid Jobs belonging to Contracts
where `payerId` is the payer and `status == in_progress`. -/
def MaxDepositSpec (s : Store) (payerId : Nat) : ℚ :=
  ((s.jobs.filter (fun j => !j.paid &&
    s.contracts.any (fun c => c.id == j.contractId && c.clientId == payerId &&
      c.status == ContractStatus.inProgress))).map Job.price).sum * (1 / 4)

def storeC5 : Store :=
  { profiles := [
      { id := 1, type := ProfileType.client, profession := "",
        balance := some 0, firstName := "a", lastName := "b" },
      { id := 2, type := ProfileType.contractor, profession := "p",
        balance := some 0, firstName := "c", lastName := "d" }],
    contracts := [
      { id := 1, clientId := 1, contractorId := 2,
        status := ContractStatus.inProgress }],
    jobs := [
      { id := 1, contractId := 1, price := 200, paid := false,
        paymentDate := none }] }

/-- C5: `maxDeposit` equals the spec's 25%-of-outstanding formula — in
particular it is `0` when no unpaid in-progress job exists (JavaScript
evaluates `null * 0.25` to `0`) — and the spec's scenario (one unpaid
job priced 200 on an in-progress contract) yields a limit of 50. -/
theorem maxDeposit_correct (s : Store) (payerId : Nat) :
    maxDeposit s payerId = MaxDepositSpec s payerId ∧
    (s.jobs.filter (fun j => !j.paid &&
      s.contracts.any (fun c => c.id == j.contractId &&
        c.clientId == payerId &&
        c.status == ContractStatus.inProgress)) = [] →
      maxDeposit s payerId = 0) ∧
    maxDeposit storeC5 1 = 50 := by
  refine ⟨?_, ?_, ?_⟩
  · unfold maxDeposit unpaidJobsTotal MaxDepositSpec
    cases hfil : s.jobs.filter (fun j => !j.paid &&
        s.contracts.any (fun c => c.id == j.contractId &&
          c.clientId == payerId &&
          c.status == ContractStatus.inProgress)) with
    | nil => simp [hfil]
    | cons j js => simp [hfil]
  · intro h
    unfold maxDeposit unpaidJobsTotal
    simp [h]
  · norm_num [maxDeposit, unpaidJobsTotal, storeC5]

/-- Witness for C5: in a store with no jobs at all, the filtered list is
empty and the limit computes to `0`. -/
theorem maxDeposit_correct_witness :
    maxDeposit { profiles := [], contracts := [], jobs := [] } 1 = 0 := by
  exact (maxDeposit_correct { profiles := [], contracts := [], jobs := [] }
    1).2.1 rfl

/-! ## C6 — deposit succeeds exactly up to the limit -/

/-- C6: for an existing payer profile with numeric balance `b` and any
positive amount `a`, the deposit succeeds — returning the new balance
`b + a` — if and only if `a ≤ maxDeposit`; any larger amount fails with
`depositLimitExceeded`, and on success the stored balance increases by
exactly `a`. -/
theorem deposit_boundary (s : Store) (userId : Nat) (client : Profile)
    (a b : ℚ)
    (hcl : findClient s userId = some client)
    (hb : client.balance = some b) (ha : 0 < a) :
    ((depositRun s userId (some a)).1 =
        DepositOutcome.success (some (b + a)) ↔
      a ≤ maxDeposit s userId) ∧
    (maxDeposit s userId < a →
      (depositRun s userId (some a)).1 =
        DepositOutcome.depositLimitExceeded (maxDeposit s userId)) ∧
    (a ≤ maxDeposit s userId →
      (findClient (depositRun s userId (some a)).2 userId).map
        Profile.balance = some (some (b + a))) := by
  have hle : jle (some a) (some 0) = false := by
    simp only [jle, decide_eq_false_iff_not, not_le]
    exact ha
  cases hgt : jgt (some a) (some (maxDeposit s userId)) with
  | true =>
    have hgt2 : maxDeposit s userId < a := by
      have h2 := hgt
      simp only [jgt, decide_eq_true_eq] at h2
      exact h2
    have hout : (depositRun s userId (some a)).1 =
        DepositOutcome.depositLimitExceeded (maxDeposit s userId) := by
      simp only [depositRun, hle, hcl, hgt]
      simp
    refine ⟨⟨fun h => ?_, fun h => absurd hgt2 (not_lt.mpr h)⟩,
      fun h => hout, fun h => absurd h (not_le.mpr hgt2)⟩
    rw [hout] at h
    simp at h
  | false =>
    have hgt2 : a ≤ maxDeposit s userId := by
      have h2 := hgt
      simp only [jgt, decide_eq_false_iff_not, not_lt] at h2
      exact h2
    have hout : (depositRun s userId (some a)).1 =
        DepositOutcome.success (some (b + a)) := by
      simp only [depositRun, hle, hcl, hgt]
      rw [hb]
      simp [jadd]
    refine ⟨iff_of_true hout hgt2,
      fun h => absurd hgt2 (not_le.mpr h), fun h => ?_⟩
    have e2 := @updateFirst_find?_self
      (fun p => p.id == userId && p.type == ProfileType.client)
      (fun p => { p with balance := jadd client.balance (some a) })
      (fun p => rfl) s.profiles
    simp only [depositRun, hle, hcl, hgt]
    show ((updateFirst
        (fun p => p.id == userId && p.type == ProfileType.client)
        (fun p => { p with balance := jadd client.balance (some a) })
        s.profiles).find?
        (fun p => p.id == userId && p.type == ProfileType.client)).map
        Profile.balance = some (some (b + a))
    rw [e2]
    unfold findClient at hcl
    rw [hcl, hb]
    simp [jadd]

/-- Witness for C6: with `maxDeposit = 50` (one unpaid job priced 200)
and payer balance 0, depositing exactly 50 succeeds with new balance 50,
and depositing 51 fails with the limit 50. -/
theorem deposit_boundary_witness :
    (depositRun storeC5 1 (some 50)).1 =
      DepositOutcome.success (some 50) ∧
    (depositRun storeC5 1 (some 51)).1 =
      DepositOutcome.depositLimitExceeded 50 := by
  have hmax : maxDeposit storeC5 1 = 50 := by
    norm_num [maxDeposit, unpaidJobsTotal, storeC5]
  have hcl : findClient storeC5 1 = some
      { id := 1, type := ProfileType.client, profession := "",
        balance := some 0, firstName := "a", lastName := "b" } := by
    norm_num [findClient, storeC5]
  constructor
  · have h := (deposit_boundary storeC5 1
      { id := 1, type := ProfileType.client, profession := "",
        balance := some 0, firstName := "a", lastName := "b" }
      50 0 hcl rfl (by norm_num)).1.mpr (by rw [hmax])
    rw [h]
    norm_num
  · have h := (deposit_boundary storeC5 1
      { id := 1, type := ProfileType.client, profession := "",
        balance := some 0, firstName := "a", lastName := "b" }
      51 0 hcl rfl (by norm_num)).2.1 (by rw [hmax]; norm_num)
    rw [h, hmax]

/-! ## C7 — a non-numeric amount slips through the deposit validation -/

def storeC7 : Store :=
  { profiles := [
      { id := 1, type := ProfileType.client, profession := "",
        balance := some 100, firstName := "a", lastName := "b" }],
    contracts := [],
    jobs := [] }

/-- C7 (code bug): a non-numeric or missing `amount` coerces to `NaN`,
for which both JavaScript guards `amount <= 0` and `amount > maxDeposit`
are `false`; the handler therefore accepts the deposit instead of
rejecting it with `InvalidAmount`, and writes `NaN`
(`parseFloat(balance) + NaN`) into the payer's stored balance. -/
theorem deposit_nan_bug :
    (depositRun storeC7 1 none).1 ≠ DepositOutcome.invalidRequest ∧
    (depositRun storeC7 1 none).1 = DepositOutcome.success none ∧
    (findClient (depositRun storeC7 1 none).2 1).map Profile.balance =
      some none := by
  have hrun : depositRun storeC7 1 none =
      (DepositOutcome.success none,
        { profiles := [
            { id := 1, type := ProfileType.client, profession := "",
              balance := none, firstName := "a", lastName := "b" }],
          contracts := [],
          jobs := [] }) := by
    norm_num [depositRun, findClient, maxDeposit, unpaidJobsTotal, jle, jgt,
      jadd, updateFirst, storeC7]
  rw [hrun]
  refine ⟨by simp, rfl, ?_⟩
  norm_num [findClient]

/-! ## C8 — best profession maximises the per-profession price sum -/

/-- C8: `bestProfession` returns 404 exactly when no job matches the
query (paid, `paymentDate` inside the inclusive window, joins resolve),
and otherwise returns a profession of the grouped result set together
with its price sum, no group of which has a larger sum. -/
theorem bestProfession_correct (s : Store) (a b : Int) :
    (bestProfession s a b = none ↔
      s.jobs.filter (bpMatch s a b) = []) ∧
    (∀ prof total, bestProfession s a b = some (prof, total) →
      prof ∈ matchingProfessions s a b ∧
      total = professionSum s a b prof ∧
      ∀ q ∈ matchingProfessions s a b,
        professionSum s a b q ≤ total) := by
  constructor
  · constructor
    · intro h
      unfold bestProfession at h
      cases hmp : matchingProfessions s a b with
      | nil =>
        unfold matchingProfessions at hmp
        rw [List.dedup_eq_nil, List.filterMap_eq_nil_iff] at hmp
        rw [List.eq_nil_iff_forall_not_mem]
        intro j hj
        have hbp := (List.mem_filter.mp hj).2
        have hsome : (professionOf s j).isSome = true := by
          unfold bpMatch at hbp
          simp only [Bool.and_eq_true] at hbp
          exact hbp.2
        rw [hmp j hj] at hsome
        simp at hsome
      | cons p ps =>
        rw [hmp] at h
        simp at h
    · intro h
      unfold bestProfession
      have hmp : matchingProfessions s a b = [] := by
        unfold matchingProfessions
        rw [h]
        simp
      rw [hmp]
  · intro prof total h
    unfold bestProfession at h
    cases hmp : matchingProfessions s a b with
    | nil =>
      rw [hmp] at h
      simp at h
    | cons p ps =>
      rw [hmp] at h
      simp only [Option.some.injEq] at h
      obtain ⟨hmem, heq, hge, hall⟩ :=
        pickMax_spec (professionSum s a b) ps p
      have hprof : prof = (pickMax (professionSum s a b) p ps).1 := by
        rw [h]
      have htot : total = (pickMax (professionSum s a b) p ps).2 := by
        rw [h]
      refine ⟨?_, ?_, ?_⟩
      · rw [hprof]
        rcases hmem with h1 | h1
        · rw [h1]
          exact List.mem_cons_self _ _
        · exact List.mem_cons_of_mem _ h1
      · rw [htot, hprof]
        exact heq
      · intro q hq
        rw [htot]
        rcases List.mem_cons.mp hq with h1 | h1
        · rw [h1]
          exact hge
        · exact hall q h1

def jobC8A : Job :=
  { id := 1, contractId := 1, price := 300, paid := true,
    paymentDate := some 5 }

def jobC8B : Job :=
  { id := 2, contractId := 2, price := 500, paid := true,
    paymentDate := some 6 }

def storeC8 : Store :=
  { profiles := [
      { id := 10, type := ProfileType.contractor, profession := "A",
        balance := some 0, firstName := "a", lastName := "x" },
      { id := 11, type := ProfileType.contractor, profession := "B",
        balance := some 0, firstName := "b", lastName := "y" }],
    contracts := [
      { id := 1, clientId := 1, contractorId := 10,
        status := ContractStatus.inProgress },
      { id := 2, clientId := 1, contractorId := 11,
        status := ContractStatus.inProgress }],
    jobs := [jobC8A, jobC8B] }

/-- Witness for C8: the spec's scenario — paid jobs in window grouped
into professions "A" (sum 300) and "B" (sum 500) — returns
`("B", 500)`, and no group sums above 500. -/
theorem bestProfession_correct_witness :
    bestProfession storeC8 0 100 = some ("B", 500) ∧
    (500 : ℚ) = professionSum storeC8 0 100 "B" ∧
    ∀ q ∈ matchingProfessions storeC8 0 100,
      professionSum storeC8 0 100 q ≤ 500 := by
  have hmp : matchingProfessions storeC8 0 100 = ["A", "B"] := by decide
  have hlA : (storeC8.jobs.filter (bpMatch storeC8 0 100)).filter
      (fun j => professionOf storeC8 j == some "A") = [jobC8A] := by decide
  have hlB : (storeC8.jobs.filter (bpMatch storeC8 0 100)).filter
      (fun j => professionOf storeC8 j == some "B") = [jobC8B] := by decide
  have hA : professionSum storeC8 0 100 "A" = 300 := by
    unfold professionSum
    rw [hlA]
    norm_num [jobC8A]
  have hB : professionSum storeC8 0 100 "B" = 500 := by
    unfold professionSum
    rw [hlB]
    norm_num [jobC8B]
  have hval : bestProfession storeC8 0 100 = some ("B", 500) := by
    unfold bestProfession
    rw [hmp]
    simp [pickMax, hA, hB]
    norm_num
  have h := (bestProfession_correct storeC8 0 100).2 "B" 500 hval
  exact ⟨hval, h.2.1, h.2.2⟩

/-! ## C9 — best-clients limit handling -/

/-- C9 counterexample: the handler computes the query limit as
`parseInt(limit, 10) || 2`; a negative parsed value such as `-5` is
truthy in JavaScript, so it is passed through unchanged instead of
falling back to the default 2, refuting "every non-positive … limit
value falls back to the default". -/
theorem effectiveLimit_negative_cex :
    effectiveLimit (LimitParam.num (-5)) = -5 ∧
    effectiveLimit (LimitParam.num (-5)) ≠ 2 := by decide

/-- C9 (amended): an unspecified `limit` defaults to 2 and a non-numeric
or zero `limit` falls back to 2, but a nonzero parsed value — negative
ones included — is used as-is (JavaScript `-5 || 2` is `-5`); for every
non-negative effective limit the returned row list has at most that many
entries (what SQL does with a negative `LIMIT` is dialect-dependent and
not modelled). -/
theorem effectiveLimit_amended :
    effectiveLimit LimitParam.missing = 2 ∧
    effectiveLimit LimitParam.nonNumeric = 2 ∧
    effectiveLimit (LimitParam.num 0) = 2 ∧
    (∀ n : Int, n ≠ 0 → effectiveLimit (LimitParam.num n) = n) ∧
    (∀ (s : Store) (a b : Int) (lp : LimitParam),
      (bestClients s a b lp).length ≤ (effectiveLimit lp).toNat) := by
  refine ⟨rfl, rfl, rfl, ?_, ?_⟩
  · intro n hn
    simp [effectiveLimit, hn]
  · intro s a b lp
    unfold bestClients
    rw [List.length_take]
    exact min_le_left _ _

/-- Witness for the amended C9: `-7` is kept as the effective limit, and
with effective limit 1 the best-clients rows number at most 1. -/
theorem effectiveLimit_amended_witness :
    effectiveLimit (LimitParam.num (-7)) = -7 ∧
    (bestClients storeC8 0 100 (LimitParam.num 1)).length ≤ 1 := by
  refine ⟨effectiveLimit_amended.2.2.2.1 (-7) (by norm_num), ?_⟩
  have h := effectiveLimit_amended.2.2.2.2 storeC8 0 100 (LimitParam.num 1)
  simpa [effectiveLimit] using h

/-! ## C10 — listing contracts with an empty result -/

def storeC10 : Store :=
  { profiles := [
      { id := 1, type := ProfileType.client, profession := "",
        balance := some 0, firstName := "a", lastName := "b" }],
    contracts := [
      { id := 1, clientId := 1, contractorId := 2,
        status := ContractStatus.terminated }],
    jobs := [] }

/-- C10 counterexample: a caller with no in-progress contract gets the
404 outcome `noActiveContracts`, not a successful empty list. -/
theorem listActiveContracts_empty_cex :
    activeContractsOf storeC10 1 = [] ∧
    listActiveContracts storeC10 1 = ContractsOutcome.noActiveContracts ∧
    listActiveContracts storeC10 1 ≠ ContractsOutcome.ok [] := by decide

/-- C10 (amended): when the caller has no in-progress contract on either
side, `GET /contracts` fails with the 404 `No active contracts found`
rather than returning an empty list; when at least one matches, it
returns the filtered list. -/
theorem listActiveContracts_spec (s : Store) (pid : Nat) :
    (activeContractsOf s pid = [] →
      listActiveContracts s pid = ContractsOutcome.noActiveContracts) ∧
    (activeContractsOf s pid ≠ [] →
      listActiveContracts s pid =
        ContractsOutcome.ok (activeContractsOf s pid)) := by
  constructor
  · intro h
    simp [listActiveContracts, h]
  · intro h
    have hne : (activeContractsOf s pid).isEmpty = false := by
      cases hl : activeContractsOf s pid with
      | nil => exact absurd hl h
      | cons x xs => rfl
    simp [listActiveContracts, hne]

/-- Witness for the amended C10: the caller with only a terminated
contract gets the 404; the settlement store's caller gets its in-progress
contract back. -/
theorem listActiveContracts_spec_witness :
    listActiveContracts storeC10 1 = ContractsOutcome.noActiveContracts ∧
    listActiveContracts storeC1 1 =
      ContractsOutcome.ok (activeContractsOf storeC1 1) := by
  exact ⟨(listActiveContracts_spec storeC10 1).1 (by decide),
    (listActiveContracts_spec storeC1 1).2 (by decide)⟩
